import Mathlib

/-!
Shallow embedding of the `gh-sync-repositories` reconciliation engine
(`src/main.rs`, `src/types.rs`) and proofs about its specification.

The data model mirrors `types.rs`; the handler (`function_handler` in
`main.rs`) is modelled as a pure state-passing function over an explicit
database state, an environment (configured secret plus the remote
issue-listing API as a function), and a trace of the storage/API
operations it issues, in program order.
-/

namespace GhSync

/-- `RepoInfo` from `types.rs`: the `(owner, name)` pair addressing the
remote API. -/
structure RepoInfo where
  owner : String
  name : String
  deriving DecidableEq, Repr

/-- Rust `str::split(sep)` on a character list: always returns at least one
(possibly empty) segment; adjacent separators and separators at either end
produce empty segments. -/
def splitChar (sep : Char) : List Char → List (List Char)
  | [] => [[]]
  | c :: cs =>
    if c = sep then
      [] :: splitChar sep cs
    else
      match splitChar sep cs with
      | [] => [[c]]
      | seg :: segs => (c :: seg) :: segs

/-- Rust `str::trim_end_matches(sep)` for a single-character pattern:
remove every trailing occurrence of `sep`. -/
def trimEndMatches (sep : Char) (s : List Char) : List Char :=
  (s.reverse.dropWhile (fun c => c = sep)).reverse

/-- `RepoInfo::from_url` from `types.rs`:
`url.trim_end_matches('/').split('/')` collected into `parts`, then
`Some {owner := parts[len-2], name := parts[len-1]}` when `parts.len() >= 2`,
else `None`. -/
def RepoInfo.from_url (url : String) : Option RepoInfo :=
  let parts : List (List Char) := splitChar '/' (trimEndMatches '/' url.data)
  if h : parts.length ≥ 2 then
    some { owner := String.mk (parts.get ⟨parts.length - 2, by omega⟩),
           name := String.mk (parts.get ⟨parts.length - 1, by omega⟩) }
  else
    none

/-- Timestamps (`DateTime<Utc>` in the source) are opaque values copied
around unchanged; modelled as a wrapped integer. -/
structure DateTime where
  val : Int
  deriving DecidableEq, Repr

/-- A GitHub label object; only its `name` is used by the source. -/
structure Label where
  name : String
  deriving DecidableEq, Repr

/-- A GitHub user object; only its `login` is used by the source. -/
structure GHUser where
  login : String
  deriving DecidableEq, Repr

/-- The remote issue shape (`octocrab::models::issues::Issue`), restricted
to the fields the source reads. `number` is a `u64` value, kept as a `Nat`;
`pull_request` is `some` exactly when the entry carries a pull-request
association. -/
structure Issue where
  number : Nat
  title : String
  html_url : String
  created_at : DateTime
  updated_at : DateTime
  user : GHUser
  labels : List Label
  pull_request : Option Unit
  deriving DecidableEq, Repr

/-- `KudosIssue` from `types.rs`. `number` is an `i64` value, kept as an
`Int`. -/
structure KudosIssue where
  number : Int
  title : String
  html_url : String
  issue_created_at : DateTime
  issue_updated_at : DateTime
  user : String
  labels : List String
  deriving DecidableEq, Repr

/-- Rust's `as i64` cast applied to a `u64` value: two's-complement
reinterpretation (wrapping). -/
def u64_as_i64 (n : Nat) : Int :=
  if n % 2 ^ 64 < 2 ^ 63 then ((n % 2 ^ 64 : Nat) : Int)
  else ((n % 2 ^ 64 : Nat) : Int) - 2 ^ 64

/-- `impl From<Issue> for KudosIssue` from `types.rs`: field-by-field copy,
`number as i64`, labels reduced to their name strings in order. -/
def KudosIssue.from (value : Issue) : KudosIssue :=
  { number := u64_as_i64 value.number
    title := value.title
    html_url := value.html_url
    issue_created_at := value.created_at
    issue_updated_at := value.updated_at
    user := value.user.login
    labels := value.labels.map (fun label => label.name) }

/-- `Repository` from `types.rs`: one `{label, url}` entry of the payload. -/
structure Repository where
  label : String
  url : String
  deriving DecidableEq, Repr

/-- `Repository::insert_respository_query` from `types.rs`: returns a fixed
SQL string (the receiver is unused). -/
def Repository.insert_respository_query (_self : Repository) : String :=
  "\n        INSERT INTO repositories (slug, project_id)\n        VALUES ($1, $2)\n        RETURNING id;\n        "

/-- `ProjectAttributes` from `types.rs`. -/
structure ProjectAttributes where
  purposes : List String
  stack_levels : List String
  technologies : List String
  types : List String
  deriving DecidableEq, Repr

/-- `Payload` from `types.rs`: the reconciliation request body. -/
structure Payload where
  secret : String
  project_slug : String
  project_name : String
  repos_to_add : List Repository
  repos_to_remove : List Repository
  attributes : Option ProjectAttributes
  deriving DecidableEq, Repr

/-- A row of the `projects` table (columns used by the source). -/
structure ProjectRow where
  id : Int
  name : String
  slug : String
  purposes : List String
  stack_levels : List String
  technologies : List String
  types : List String
  deriving DecidableEq, Repr

/-- A row of the `repositories` table. The engine's insert writes only
`slug` and `project_id`, so `url` is nullable (`Option`) and left `none`
by rows this engine creates. -/
structure RepoRow where
  id : Int
  slug : String
  project_id : Int
  url : Option String
  deriving DecidableEq, Repr

/-- A row of the `issues` table (the persisted columns). -/
structure IssueRow where
  number : Int
  title : String
  labels : List String
  repository_id : Int
  issue_created_at : DateTime
  deriving DecidableEq, Repr

/-- The relational store. `next_repo_id` models the generated-id sequence
returned by `RETURNING id`. -/
structure Db where
  projects : List ProjectRow
  repositories : List RepoRow
  issues : List IssueRow
  next_repo_id : Int
  deriving DecidableEq, Repr

/-- One storage or remote-API operation issued by the handler, recorded in
program order. -/
inductive Event where
  | projectLookup (name slug : String)
  | attrUpdate (project_id : Int)
  | repoDelete (url : String)
  | repoInsert (slug : String) (project_id : Int)
  | issueFetch (owner name : String)
  | issuesInsert (sql : String) (rows : Nat)
  deriving DecidableEq, Repr

/-- The process environment: the configured `SECRET` and the remote
issue-listing API, as a function from `(owner, name)` to the issue
entries it would return. -/
structure Env where
  secret : String
  fetch : String → String → List Issue

/-- The handler's error outcomes (each terminal for the invocation). -/
inductive HandlerError where
  | authError
  | notFoundError
  | urlParseError
  deriving DecidableEq, Repr

/-- An HTTP response: status code and text body. -/
structure Response where
  status : Nat
  body : String
  deriving DecidableEq, Repr

/-- `SELECT id FROM projects WHERE name = $1 AND slug = $2` with
`fetch_one`: the first matching row, or an error when none matches. -/
def lookupProject (db : Db) (name slug : String) : Option ProjectRow :=
  db.projects.find? (fun p => p.name = name && p.slug = slug)

/-- The row transformation of the attribute update statement: on the row
whose `id` matches, overwrite all four attribute columns; other rows are
untouched. -/
def overwriteAttrs (project_id : Int) (attributes : ProjectAttributes)
    (p : ProjectRow) : ProjectRow :=
  if p.id = project_id then
    { p with
        purposes := attributes.purposes
        stack_levels := attributes.stack_levels
        technologies := attributes.technologies
        types := attributes.types }
  else p

/-- The attribute update step (`main.rs` lines 46–54): when `attributes` is
present, one `UPDATE projects SET purposes, stack_levels, technologies,
types WHERE id = project_id`; when absent, nothing. -/
def applyAttributes (db : Db) (project_id : Int) :
    Option ProjectAttributes → Db × List Event
  | none => (db, [])
  | some attributes =>
      ({ db with projects := db.projects.map (overwriteAttrs project_id attributes) },
       [Event.attrUpdate project_id])

/-- `DELETE FROM repositories WHERE url = $1`, with the storage-layer
`ON DELETE CASCADE` to `issues`. -/
def deleteRepoByUrl (db : Db) (url : String) : Db :=
  let removedIds := (db.repositories.filter (fun r => r.url = some url)).map (fun r => r.id)
  { db with
      repositories := db.repositories.filter (fun r => ¬ r.url = some url)
      issues := db.issues.filter (fun i => ¬ i.repository_id ∈ removedIds) }

/-- The removal loop (`main.rs` lines 56–62): one delete per entry of
`repos_to_remove`, in order. -/
def applyRemovals (db : Db) : List Repository → Db × List Event
  | [] => (db, [])
  | repo :: rest =>
      let r := applyRemovals (deleteRepoByUrl db repo.url) rest
      (r.1, Event.repoDelete repo.url :: r.2)

/-- The issue filter (`main.rs` lines 99–108):
`filter_map(|issue| issue.pull_request.is_none().then(|| KudosIssue::from(issue)))`. -/
def filterIssues (items : List Issue) : List KudosIssue :=
  items.filterMap (fun issue =>
    if issue.pull_request.isNone then some (KudosIssue.from issue) else none)

/-- The placeholder text for one issue block (`main.rs` lines 117–126):
`format!("(${}, ${}, ${}, ${}, ${})", i*5+1, …, i*5+5)`. -/
def placeholderBlock (i : Nat) : String :=
  "($" ++ toString (i * 5 + 1) ++ ", $" ++ toString (i * 5 + 2) ++ ", $" ++
    toString (i * 5 + 3) ++ ", $" ++ toString (i * 5 + 4) ++ ", $" ++
    toString (i * 5 + 5) ++ ")"

/-- The placeholders string (`main.rs` lines 114–128): enumerate the
filtered issues, format each block, join with `", "`. -/
def placeholdersFor (filtered_issues : List KudosIssue) : String :=
  String.intercalate ", "
    (filtered_issues.enum.map (fun p => placeholderBlock p.1))

/-- The batch insert statement (`main.rs` lines 130–133). -/
def insertIssuesQueryString (filtered_issues : List KudosIssue) : String :=
  "INSERT INTO issues (number, title, labels, repository_id, issue_created_at) VALUES "
    ++ placeholdersFor filtered_issues

/-- The issue rows bound by the insert loop (`main.rs` lines 137–144):
for each filtered issue, `(number, title, labels, repo_id, issue_created_at)`. -/
def issueRowsFor (filtered_issues : List KudosIssue) (repo_id : Int) : List IssueRow :=
  filtered_issues.map (fun issue =>
    { number := issue.number
      title := issue.title
      labels := issue.labels
      repository_id := repo_id
      issue_created_at := issue.issue_created_at })

/-- The add-and-import loop (`main.rs` lines 79–149), fail-fast: parse the
URL (failure aborts the whole request), insert the repository row
(obtaining its generated id), fetch the first page (`per_page(100)`) of
open issues, filter, and — unless the filtered set is empty — execute one
batch insert whose affected-row count accumulates into the total. -/
def processAdds (env : Env) (project_id : Int) :
    List Repository → Db → Nat → Except HandlerError Nat × Db × List Event
  | [], db, total => (Except.ok total, db, [])
  | repo :: rest, db, total =>
    match RepoInfo.from_url repo.url with
    | none => (Except.error HandlerError.urlParseError, db, [])
    | some repo_info =>
      let repo_id := db.next_repo_id
      let db1 : Db :=
        { db with
            repositories :=
              db.repositories ++ [{ id := repo_id, slug := repo.label,
                                    project_id := project_id, url := none }]
            next_repo_id := repo_id + 1 }
      let items := (env.fetch repo_info.owner repo_info.name).take 100
      let tr0 := [Event.repoInsert repo.label project_id,
                  Event.issueFetch repo_info.owner repo_info.name]
      let filtered_issues := filterIssues items
      if filtered_issues.isEmpty then
        let r := processAdds env project_id rest db1 total
        (r.1, r.2.1, tr0 ++ r.2.2)
      else
        let query_string := insertIssuesQueryString filtered_issues
        let db2 : Db := { db1 with issues := db1.issues ++ issueRowsFor filtered_issues repo_id }
        let issues_inserted_count := filtered_issues.length
        let r := processAdds env project_id rest db2 (total + issues_inserted_count)
        (r.1, r.2.1, tr0 ++ [Event.issuesInsert query_string issues_inserted_count] ++ r.2.2)

/-- `function_handler` from `main.rs`, from the point where the payload has
been decoded (body framing and JSON decoding precede the modelled logic):
secret check, project lookup, attribute update, removals, early return when
`repos_to_add` is empty — whose body interpolates the string literal
`"total_issues_imported"`, as the source does — then the add-and-import
loop and the final response. Returns the outcome together with the final
store and the trace of operations issued. -/
def function_handler (env : Env) (db : Db) (payload : Payload) :
    Except HandlerError Response × Db × List Event :=
  if payload.secret ≠ env.secret then
    (Except.error HandlerError.authError, db, [])
  else
    match lookupProject db payload.project_name payload.project_slug with
    | none =>
        (Except.error HandlerError.notFoundError, db,
         [Event.projectLookup payload.project_name payload.project_slug])
    | some project_row =>
      let project_id := project_row.id
      let ua := applyAttributes db project_id payload.attributes
      let rm := applyRemovals ua.1 payload.repos_to_remove
      let trPre := Event.projectLookup payload.project_name payload.project_slug :: (ua.2 ++ rm.2)
      if payload.repos_to_add.isEmpty then
        (Except.ok { status := 200,
                     body := "Total issues imported: " ++ "total_issues_imported" },
         rm.1, trPre)
      else
        let pa := processAdds env project_id payload.repos_to_add rm.1 0
        match pa.1 with
        | Except.ok total_issues_imported =>
            (Except.ok { status := 200,
                         body := "Total issues imported: " ++ toString total_issues_imported },
             pa.2.1, trPre ++ pa.2.2)
        | Except.error e =>
            (Except.error e, pa.2.1, trPre ++ pa.2.2)

/-- `true` exactly on attribute-update events. -/
def Event.isAttrUpdate : Event → Bool
  | Event.attrUpdate _ => true
  | _ => false

/-- `true` exactly on repository-delete events. -/
def Event.isRepoDelete : Event → Bool
  | Event.repoDelete _ => true
  | _ => false

/-- `true` exactly on remote issue-fetch events. -/
def Event.isIssueFetch : Event → Bool
  | Event.issueFetch _ _ => true
  | _ => false

/-- `true` exactly on batch issue-insert events. -/
def Event.isIssuesInsert : Event → Bool
  | Event.issuesInsert _ _ => true
  | _ => false

/-- `true` exactly on events issued by the add-and-import phase:
repository insert, remote fetch, batch issue insert. -/
def Event.isAddPhase : Event → Bool
  | Event.repoInsert _ _ => true
  | Event.issueFetch _ _ => true
  | Event.issuesInsert _ _ => true
  | _ => false

/-- Spec-side locator, following the amended wording of the claim about
`RepoInfo::from_url`: trim all trailing slashes, split on `'/'` (segments
may be empty), and take the last segment as `name` and the one before it
as `owner`; `None` when fewer than two segments exist. Built from the end
of the list rather than by length-based indexing, for comparison with the
source definition. -/
def locate_spec (url : String) : Option RepoInfo :=
  match (splitChar '/' (trimEndMatches '/' url.data)).reverse with
  | name :: owner :: _ => some { owner := String.mk owner, name := String.mk name }
  | _ => none

/-- Spec-side count of issues imported for one `{label, url}` entry: the
number of non-pull-request entries among the (at most 100) fetched ones. -/
def filteredCount (env : Env) (repo : Repository) : Nat :=
  match RepoInfo.from_url repo.url with
  | none => 0
  | some info =>
      (((env.fetch info.owner info.name).take 100).filter
        (fun issue => issue.pull_request.isNone)).length

/-- Spec-side placeholder text for N issues, following the spec's words:
the i-th issue's block is `($5i+1, $5i+2, $5i+3, $5i+4, $5i+5)` (1-indexed,
5-wide), blocks joined by `", "`. -/
def specPlaceholders (n : Nat) : String :=
  String.intercalate ", "
    ((List.range n).map (fun i =>
      "($" ++ toString (5 * i + 1) ++ ", $" ++ toString (5 * i + 2) ++ ", $" ++
        toString (5 * i + 3) ++ ", $" ++ toString (5 * i + 4) ++ ", $" ++
        toString (5 * i + 5) ++ ")"))

/-- Fixture: one project row used by concrete runs. -/
def sampleProject : ProjectRow :=
  { id := 7, name := "kudos", slug := "kudos-slug",
    purposes := ["p"], stack_levels := ["s"], technologies := ["t"], types := ["y"] }

/-- Fixture: a plain open issue. -/
def sampleIssue1 : Issue :=
  { number := 1, title := "bug one", html_url := "https://github.com/foo/bar/issues/1",
    created_at := ⟨100⟩, updated_at := ⟨101⟩, user := ⟨"alice"⟩,
    labels := [⟨"bug"⟩, ⟨"help wanted"⟩], pull_request := none }

/-- Fixture: an entry carrying a pull-request association. -/
def sampleIssue2 : Issue :=
  { number := 2, title := "a pull request", html_url := "https://github.com/foo/bar/pull/2",
    created_at := ⟨102⟩, updated_at := ⟨103⟩, user := ⟨"bob"⟩,
    labels := [], pull_request := some () }

/-- Fixture: another plain open issue. -/
def sampleIssue3 : Issue :=
  { number := 3, title := "bug three", html_url := "https://github.com/foo/bar/issues/3",
    created_at := ⟨104⟩, updated_at := ⟨105⟩, user := ⟨"carol"⟩,
    labels := [⟨"good first issue"⟩], pull_request := none }

/-- Fixture: an environment whose remote API serves three issues (one of
them a pull request) for `foo/bar` and nothing else. -/
def sampleEnv : Env :=
  { secret := "s3cret",
    fetch := fun owner name =>
      if owner = "foo" then
        if name = "bar" then [sampleIssue1, sampleIssue2, sampleIssue3] else []
      else [] }

/-- Fixture: a store with one project and one repository (`foo/baz`, with
one issue) that the sample payload removes. -/
def sampleDb : Db :=
  { projects := [sampleProject],
    repositories := [{ id := 1, slug := "old", project_id := 7,
                       url := some "https://github.com/foo/baz" }],
    issues := [{ number := 9, title := "old issue", labels := [],
                 repository_id := 1, issue_created_at := ⟨50⟩ }],
    next_repo_id := 2 }

/-- Fixture: an attribute overwrite. -/
def sampleAttributes : ProjectAttributes :=
  { purposes := ["dev"], stack_levels := ["full"], technologies := ["rust"],
    types := ["tool"] }

/-- Fixture: a payload updating attributes, removing `foo/baz` and adding
`foo/bar`. -/
def samplePayload : Payload :=
  { secret := "s3cret", project_slug := "kudos-slug", project_name := "kudos",
    repos_to_add := [{ label := "x", url := "https://github.com/foo/bar" }],
    repos_to_remove := [{ label := "old", url := "https://github.com/foo/baz" }],
    attributes := some sampleAttributes }

/-- Fixture: the sample payload with an empty `reposToAdd`. -/
def emptyAddPayload : Payload :=
  { samplePayload with repos_to_add := [] }

/-- Fixture: the sample payload with a wrong secret. -/
def wrongSecretPayload : Payload :=
  { samplePayload with secret := "nope" }

/-- Fixture: an issue whose `u64` number has the high bit set. -/
def bigIssue : Issue :=
  { number := 2 ^ 63, title := "big", html_url := "u",
    created_at := ⟨0⟩, updated_at := ⟨0⟩, user := ⟨"u"⟩,
    labels := [], pull_request := none }

/-- Fixture: a repository row with no stored `url`, as this engine creates
them. -/
def noUrlRow : RepoRow :=
  { id := 3, slug := "n", project_id := 7, url := none }

/-- Fixture: a store containing only the `url`-less row. -/
def dbWithNoUrlRow : Db :=
  { projects := [sampleProject], repositories := [noUrlRow], issues := [],
    next_repo_id := 4 }

/-- Fixture: the repository row the sample run creates for `foo/bar`. -/
def addedRow : RepoRow :=
  { id := 2, slug := "x", project_id := 7, url := none }

/-- Fixture: the successful response of the sample run. -/
def respC3 : Response :=
  { status := 200, body := "Total issues imported: 2" }

end GhSync

namespace GhSync

theorem getElem?_append_doubleton {α : Type} (l : List α) (a b : α) :
    (l ++ [a, b])[l.length]? = some a ∧ (l ++ [a, b])[l.length + 1]? = some b := by
  constructor
  · rw [List.getElem?_append_right (Nat.le_refl _)]
    simp
  · rw [List.getElem?_append_right (by omega)]
    have : l.length + 1 - l.length = 1 := by omega
    rw [this]
    simp

theorem from_url_core (parts : List (List Char)) :
    (if h : parts.length ≥ 2 then
        some { owner := String.mk (parts.get ⟨parts.length - 2, by omega⟩),
               name := String.mk (parts.get ⟨parts.length - 1, by omega⟩) }
     else (none : Option RepoInfo)) =
    (match parts.reverse with
     | name :: owner :: _ => some { owner := String.mk owner, name := String.mk name }
     | _ => none) := by
  rcases h : parts.reverse with _ | ⟨name, rest⟩
  · have hp : parts = [] := by simpa using congrArg List.reverse h
    subst hp
    simp
  · rcases rest with _ | ⟨owner, t⟩
    · have hp : parts = [name] := by simpa using congrArg List.reverse h
      subst hp
      simp
    · have hp : parts = t.reverse ++ [owner, name] := by
        simpa using congrArg List.reverse h
      subst hp
      have hlen : (t.reverse ++ [owner, name]).length ≥ 2 := by simp
      rw [dif_pos hlen]
      have hidx2 : (t.reverse ++ [owner, name]).length - 2 = t.reverse.length := by
        simp
      have hidx1 : (t.reverse ++ [owner, name]).length - 1 = t.reverse.length + 1 := by
        simp
      have e2' : (t.reverse ++ [owner, name])[(t.reverse ++ [owner, name]).length - 2]? = some owner := by
        rw [hidx2]
        exact (getElem?_append_doubleton t.reverse owner name).1
      have e1' : (t.reverse ++ [owner, name])[(t.reverse ++ [owner, name]).length - 1]? = some name := by
        rw [hidx1]
        exact (getElem?_append_doubleton t.reverse owner name).2
      have h2lt : (t.reverse ++ [owner, name]).length - 2 < (t.reverse ++ [owner, name]).length := by
        simp
      have h1lt : (t.reverse ++ [owner, name]).length - 1 < (t.reverse ++ [owner, name]).length := by
        simp
      rw [List.getElem?_eq_getElem h2lt] at e2'
      rw [List.getElem?_eq_getElem h1lt] at e1'
      have e2 := Option.some.inj e2'
      have e1 := Option.some.inj e1'
      simp only [List.get_eq_getElem]
      rw [e2, e1]

/-- Claim C2 (amended): `RepoInfo::from_url` trims all trailing `'/'`
characters, splits the remainder on `'/'`, and — whenever at least two
segments exist, empty segments included — returns `Some` with `owner` the
second-to-last and `name` the last segment; it returns `None` exactly when
fewer than two segments exist. Stated as equality with the spec-side
`locate_spec`, which reads the segments from the reversed list. -/
theorem C2_from_url_amended (url : String) : RepoInfo.from_url url = locate_spec url := by
  unfold RepoInfo.from_url locate_spec
  exact from_url_core _

end GhSync

namespace GhSync

/-- Claim C2 counterexample: the claim predicts `None` for `"/x"` (fewer
than two non-empty segments), but `RepoInfo::from_url` does not skip empty
segments and returns `Some` with an empty owner. -/
theorem C2_from_url_counterexample :
    RepoInfo.from_url "/x" = some { owner := "", name := "x" } ∧
    ¬ RepoInfo.from_url "/x" = none := by
  constructor <;> decide

/-- Claim C4: the filtered set is exactly the non-pull-request entries
mapped through the normalizer, so an entry carrying a pull-request
association never appears and every other entry does; the normalizer maps
`labels` to the ordered sequence of label name strings. -/
theorem C4_pull_request_filter :
    (∀ items : List Issue,
      filterIssues items =
        (items.filter (fun issue => issue.pull_request.isNone)).map KudosIssue.from) ∧
    (∀ issue : Issue,
      (KudosIssue.from issue).labels = issue.labels.map (fun label => label.name)) := by
  constructor
  · intro items
    induction items with
    | nil => rfl
    | cons i rest ih =>
      simp only [filterIssues] at ih ⊢
      cases hpr : i.pull_request with
      | none => simpa [List.filterMap_cons, List.filter_cons, hpr] using ih
      | some pr => simpa [List.filterMap_cons, List.filter_cons, hpr] using ih
  · intro issue
    rfl

/-- Claim C8: for every filtered issue list, the batch insert builder
emits the single statement
`INSERT INTO issues (number, title, labels, repository_id, issue_created_at) VALUES …`
whose placeholder text is the spec's 5-wide, 1-indexed block per issue
(`($5i+1, …, $5i+5)`), blocks joined by `", "`, for every length N. -/
theorem C8_placeholder_blocks (filtered_issues : List KudosIssue) :
    insertIssuesQueryString filtered_issues =
      "INSERT INTO issues (number, title, labels, repository_id, issue_created_at) VALUES "
        ++ specPlaceholders filtered_issues.length ∧
    placeholdersFor filtered_issues = specPlaceholders filtered_issues.length := by
  have key : placeholdersFor filtered_issues = specPlaceholders filtered_issues.length := by
    unfold placeholdersFor specPlaceholders
    congr 1
    have h1 : filtered_issues.enum.map (fun p => placeholderBlock p.1) =
        (filtered_issues.enum.map Prod.fst).map placeholderBlock := by
      rw [List.map_map]
      rfl
    rw [h1, List.enum_map_fst]
    apply List.map_congr_left
    intro i _
    unfold placeholderBlock
    rw [Nat.mul_comm]
  exact ⟨by unfold insertIssuesQueryString; rw [key], key⟩

/-- Claim C9: `KudosIssue::from` converts the remote `u64` issue number
with Rust's wrapping `as i64` semantics: numbers below `2^63` are
preserved; numbers of `2^63` or more become the two's-complement
reinterpretation (original minus `2^64`), which is negative. -/
theorem C9_number_cast (issue : Issue) (h : issue.number < 2 ^ 64) :
    (issue.number < 2 ^ 63 → (KudosIssue.from issue).number = issue.number) ∧
    (2 ^ 63 ≤ issue.number →
      (KudosIssue.from issue).number = (issue.number : Int) - 2 ^ 64 ∧
      (KudosIssue.from issue).number < 0) := by
  have hnum : (KudosIssue.from issue).number = u64_as_i64 issue.number := rfl
  rw [hnum]
  unfold u64_as_i64
  rw [Nat.mod_eq_of_lt h]
  constructor
  · intro h1
    rw [if_pos h1]
  · intro h1
    rw [if_neg (by omega)]
    constructor
    · rfl
    · have : (issue.number : Int) < 2 ^ 64 := by exact_mod_cast h
      omega

end GhSync

namespace GhSync

theorem applyAttributes_projects_none (db : Db) (pid : Int) :
    (applyAttributes db pid none).1 = db := rfl

theorem applyRemovals_projects (rs : List Repository) : ∀ db : Db,
    (applyRemovals db rs).1.projects = db.projects := by
  induction rs with
  | nil => intro db; rfl
  | cons r rest ih =>
    intro db
    have : (applyRemovals db (r :: rest)).1 = (applyRemovals (deleteRepoByUrl db r.url) rest).1 := rfl
    rw [this, ih]
    rfl

theorem applyRemovals_events (rs : List Repository) : ∀ (db : Db) (e : Event),
    e ∈ (applyRemovals db rs).2 → ∃ u, e = Event.repoDelete u := by
  induction rs with
  | nil => intro db e he; simp [applyRemovals] at he
  | cons r rest ih =>
    intro db e he
    simp only [applyRemovals, List.mem_cons] at he
    rcases he with h | h
    · exact ⟨r.url, h⟩
    · exact ih _ e h

theorem processAdds_projects (env : Env) (pid : Int) (repos : List Repository) :
    ∀ (db : Db) (total : Nat),
    (processAdds env pid repos db total).2.1.projects = db.projects := by
  induction repos with
  | nil => intro db total; rfl
  | cons repo rest ih =>
    intro db total
    simp only [processAdds]
    cases hu : RepoInfo.from_url repo.url with
    | none => rfl
    | some info =>
      by_cases hf : (filterIssues ((env.fetch info.owner info.name).take 100)).isEmpty
      · simp only [hf, if_pos]
        rw [ih]
      · simp only [hf]
        rw [if_neg (by simp [hf])]
        rw [ih]

theorem processAdds_events (env : Env) (pid : Int) (repos : List Repository) :
    ∀ (db : Db) (total : Nat) (e : Event),
    e ∈ (processAdds env pid repos db total).2.2 → e.isAddPhase = true := by
  induction repos with
  | nil => intro db total e he; simp [processAdds] at he
  | cons repo rest ih =>
    intro db total e he
    cases hu : RepoInfo.from_url repo.url with
    | none => simp [processAdds, hu] at he
    | some info =>
      by_cases hf : (filterIssues ((env.fetch info.owner info.name).take 100)).isEmpty
      · simp only [processAdds, hu, if_pos hf] at he
        rcases List.mem_append.mp he with h | h
        · fin_cases h <;> rfl
        · exact ih _ _ e h
      · simp only [processAdds, hu, if_neg hf] at he
        rcases List.mem_append.mp he with h | h
        · fin_cases h <;> rfl
        · exact ih _ _ e h

end GhSync

namespace GhSync

theorem filterIssues_eq (items : List Issue) :
    filterIssues items =
      (items.filter (fun issue => issue.pull_request.isNone)).map KudosIssue.from := by
  induction items with
  | nil => rfl
  | cons i rest ih =>
    simp only [filterIssues] at ih ⊢
    cases hpr : i.pull_request with
    | none => simpa [List.filterMap_cons, List.filter_cons, hpr] using ih
    | some pr => simpa [List.filterMap_cons, List.filter_cons, hpr] using ih

theorem filterIssues_length (items : List Issue) :
    (filterIssues items).length =
      (items.filter (fun issue => issue.pull_request.isNone)).length := by
  rw [filterIssues_eq, List.length_map]

theorem applyAttributes_events (db : Db) (pid : Int) (oatt : Option ProjectAttributes) :
    ∀ e ∈ (applyAttributes db pid oatt).2, e = Event.attrUpdate pid := by
  cases oatt <;> simp [applyAttributes]

theorem processAdds_spec (env : Env) (pid : Int) (repos : List Repository) :
    ∀ (db : Db) (total t : Nat),
    (processAdds env pid repos db total).1 = Except.ok t →
    t = total + (repos.map (filteredCount env)).sum ∧
    ((processAdds env pid repos db total).2.2.filter Event.isIssuesInsert).length =
      (repos.filter (fun r => filteredCount env r != 0)).length := by
  induction repos with
  | nil =>
    intro db total t h
    simp only [processAdds] at h ⊢
    cases h
    simp
  | cons repo rest ih =>
    intro db total t h
    cases hu : RepoInfo.from_url repo.url with
    | none => simp [processAdds, hu] at h
    | some info =>
      have hcnt : filteredCount env repo =
          (filterIssues ((env.fetch info.owner info.name).take 100)).length := by
        rw [filteredCount, hu, filterIssues_length]
      by_cases hf : (filterIssues ((env.fetch info.owner info.name).take 100)).isEmpty
      · have h0 : filteredCount env repo = 0 := by
          rw [hcnt]
          simpa using hf
        simp only [processAdds, hu, if_pos hf] at h ⊢
        obtain ⟨h1, h2⟩ := ih _ _ _ h
        refine ⟨by rw [h1, List.map_cons, List.sum_cons, h0, Nat.zero_add], ?_⟩
        have hb : (filteredCount env repo != 0) = false := by simp [h0]
        simp [List.filter_append, List.filter_cons, Event.isIssuesInsert, hb, h2]
      · have hne0 : filteredCount env repo ≠ 0 := by
          rw [hcnt]
          intro hc
          exact hf (by simpa using hc)
        simp only [processAdds, hu, if_neg hf] at h ⊢
        obtain ⟨h1, h2⟩ := ih _ _ _ h
        constructor
        · rw [h1, List.map_cons, List.sum_cons, hcnt]
          omega
        · have hb : (filteredCount env repo != 0) = true := by simpa using hne0
          simp [List.filter_append, List.filter_cons, Event.isIssuesInsert, hb, h2]

end GhSync

namespace GhSync

theorem processAdds_repo_urls (env : Env) (pid : Int) (repos : List Repository) :
    ∀ (db : Db) (total : Nat) (row : RepoRow),
    row ∈ (processAdds env pid repos db total).2.1.repositories →
    row ∈ db.repositories ∨ row.url = none := by
  induction repos with
  | nil => intro db total row hr; exact Or.inl hr
  | cons repo rest ih =>
    intro db total row hr
    cases hu : RepoInfo.from_url repo.url with
    | none =>
      simp only [processAdds, hu] at hr
      exact Or.inl hr
    | some info =>
      by_cases hf : (filterIssues ((env.fetch info.owner info.name).take 100)).isEmpty
      · simp only [processAdds, hu, if_pos hf] at hr
        rcases ih _ _ _ hr with h | h
        · rcases List.mem_append.mp h with h2 | h2
          · exact Or.inl h2
          · right
            simp only [List.mem_singleton] at h2
            rw [h2]
        · exact Or.inr h
      · simp only [processAdds, hu, if_neg hf] at hr
        rcases ih _ _ _ hr with h | h
        · rcases List.mem_append.mp h with h2 | h2
          · exact Or.inl h2
          · right
            simp only [List.mem_singleton] at h2
            rw [h2]
        · exact Or.inr h

theorem lt_of_mem_split {xs ys : List Event} {P Q : Event → Bool}
    (hys : ∀ e ∈ ys, P e = false) (hxs : ∀ e ∈ xs, Q e = false)
    {i j : Nat} {ei ej : Event}
    (hi : (xs ++ ys)[i]? = some ei) (hj : (xs ++ ys)[j]? = some ej)
    (hPi : P ei = true) (hQj : Q ej = true) : i < j := by
  have hilt : i < xs.length := by
    by_contra hge
    push_neg at hge
    rw [List.getElem?_append_right hge] at hi
    have : ei ∈ ys := List.getElem?_mem hi
    rw [hys ei this] at hPi
    exact Bool.false_ne_true hPi
  have hjge : xs.length ≤ j := by
    by_contra hlt
    push_neg at hlt
    have hj' : xs[j]? = some ej := by
      rw [List.getElem?_append] at hj
      rwa [if_pos hlt] at hj
    have : ej ∈ xs := List.getElem?_mem hj'
    rw [hxs ej this] at hQj
    exact Bool.false_ne_true hQj
  omega

theorem handler_trace_shape (env : Env) (db : Db) (payload : Payload)
    (res : Except HandlerError Response) (db' : Db) (tr : List Event)
    (h : function_handler env db payload = (res, db', tr)) :
    ∃ pre u d a, tr = pre ++ u ++ d ++ a ∧
      (∀ e ∈ pre, ∃ n s, e = Event.projectLookup n s) ∧
      (∀ e ∈ u, ∃ p, e = Event.attrUpdate p) ∧
      (∀ e ∈ d, ∃ url, e = Event.repoDelete url) ∧
      (∀ e ∈ a, e.isAddPhase = true) := by
  unfold function_handler at h
  by_cases hs : payload.secret ≠ env.secret
  · rw [if_pos hs] at h
    injection h with h1 h2
    injection h2 with h2 h3
    refine ⟨[], [], [], [], by simp [← h3], by simp, by simp, by simp, by simp⟩
  · rw [if_neg hs] at h
    cases hl : lookupProject db payload.project_name payload.project_slug with
    | none =>
      rw [hl] at h
      dsimp only at h
      injection h with h1 h2
      injection h2 with h2 h3
      refine ⟨[Event.projectLookup payload.project_name payload.project_slug],
        [], [], [], by simp [← h3], ?_, by simp, by simp, by simp⟩
      intro e he
      simp only [List.mem_singleton] at he
      exact ⟨_, _, he⟩
    | some project_row =>
      rw [hl] at h
      dsimp only at h
      by_cases ha : payload.repos_to_add.isEmpty
      · rw [if_pos ha] at h
        injection h with h1 h2
        injection h2 with h2 h3
        refine ⟨[Event.projectLookup payload.project_name payload.project_slug],
          (applyAttributes db project_row.id payload.attributes).2,
          (applyRemovals (applyAttributes db project_row.id payload.attributes).1
            payload.repos_to_remove).2,
          [], by simp [← h3], ?_, ?_, ?_, by simp⟩
        · intro e he
          simp only [List.mem_singleton] at he
          exact ⟨_, _, he⟩
        · intro e he
          exact ⟨_, applyAttributes_events _ _ _ e he⟩
        · intro e he
          exact applyRemovals_events _ _ e he
      · rw [if_neg ha] at h
        cases hpa : (processAdds env project_row.id payload.repos_to_add
            (applyRemovals (applyAttributes db project_row.id payload.attributes).1
              payload.repos_to_remove).1 0).1 with
        | ok total =>
          rw [hpa] at h
          dsimp only at h
          injection h with h1 h2
          injection h2 with h2 h3
          refine ⟨[Event.projectLookup payload.project_name payload.project_slug],
            (applyAttributes db project_row.id payload.attributes).2,
            (applyRemovals (applyAttributes db project_row.id payload.attributes).1
              payload.repos_to_remove).2,
            (processAdds env project_row.id payload.repos_to_add
              (applyRemovals (applyAttributes db project_row.id payload.attributes).1
                payload.repos_to_remove).1 0).2.2,
            by simp [← h3], ?_, ?_, ?_, ?_⟩
          · intro e he
            simp only [List.mem_singleton] at he
            exact ⟨_, _, he⟩
          · intro e he
            exact ⟨_, applyAttributes_events _ _ _ e he⟩
          · intro e he
            exact applyRemovals_events _ _ e he
          · intro e he
            exact processAdds_events _ _ _ _ _ e he
        | error er =>
          rw [hpa] at h
          dsimp only at h
          injection h with h1 h2
          injection h2 with h2 h3
          refine ⟨[Event.projectLookup payload.project_name payload.project_slug],
            (applyAttributes db project_row.id payload.attributes).2,
            (applyRemovals (applyAttributes db project_row.id payload.attributes).1
              payload.repos_to_remove).2,
            (processAdds env project_row.id payload.repos_to_add
              (applyRemovals (applyAttributes db project_row.id payload.attributes).1
                payload.repos_to_remove).1 0).2.2,
            by simp [← h3], ?_, ?_, ?_, ?_⟩
          · intro e he
            simp only [List.mem_singleton] at he
            exact ⟨_, _, he⟩
          · intro e he
            exact ⟨_, applyAttributes_events _ _ _ e he⟩
          · intro e he
            exact applyRemovals_events _ _ e he
          · intro e he
            exact processAdds_events _ _ _ _ _ e he

end GhSync

namespace GhSync

theorem filter_eq_nil_of_false {α : Type} {p : α → Bool} {l : List α}
    (h : ∀ e ∈ l, p e = false) : l.filter p = [] := by
  induction l with
  | nil => rfl
  | cons x xs ih =>
    rw [List.filter_cons, h x (List.mem_cons_self x xs)]
    simpa using ih (fun e he => h e (List.mem_cons_of_mem _ he))

/-- Claim C5: a payload whose secret differs from the configured secret
makes the handler return the authentication error with the store unchanged
and an empty operation trace — the error precedes every storage
operation. -/
theorem C5_secret_mismatch (env : Env) (db : Db) (payload : Payload)
    (h : ¬ payload.secret = env.secret) :
    function_handler env db payload = (Except.error HandlerError.authError, db, []) := by
  unfold function_handler
  rw [if_pos h]

end GhSync

namespace GhSync

theorem event_not_attr_of_addPhase (e : Event) (h : e.isAddPhase = true) :
    e.isAttrUpdate = false := by
  cases e <;> first | rfl | simp [Event.isAddPhase] at h

theorem event_not_delete_of_addPhase (e : Event) (h : e.isAddPhase = true) :
    e.isRepoDelete = false := by
  cases e <;> first | rfl | simp [Event.isAddPhase] at h

/-- Claim C6: with `attributes = null` the handler issues no attribute
update and the project rows are unchanged; with `attributes` present (and
the request reaching the update step) all four attribute columns of the
looked-up project row are overwritten in exactly one update. -/
theorem C6_attributes_frame (env : Env) (db : Db) (payload : Payload)
    (res : Except HandlerError Response) (db' : Db) (tr : List Event)
    (h : function_handler env db payload = (res, db', tr)) :
    (payload.attributes = none →
      db'.projects = db.projects ∧ tr.filter Event.isAttrUpdate = []) ∧
    (∀ attributes project_row,
      payload.attributes = some attributes →
      payload.secret = env.secret →
      lookupProject db payload.project_name payload.project_slug = some project_row →
      db'.projects = db.projects.map (overwriteAttrs project_row.id attributes) ∧
      tr.filter Event.isAttrUpdate = [Event.attrUpdate project_row.id]) := by
  unfold function_handler at h
  constructor
  · intro hattr
    by_cases hs : payload.secret ≠ env.secret
    · rw [if_pos hs] at h
      injection h with h1 h2
      injection h2 with h2 h3
      rw [← h2, ← h3]
      exact ⟨rfl, rfl⟩
    · rw [if_neg hs] at h
      cases hl : lookupProject db payload.project_name payload.project_slug with
      | none =>
        rw [hl] at h
        dsimp only at h
        injection h with h1 h2
        injection h2 with h2 h3
        rw [← h2, ← h3]
        exact ⟨rfl, by simp [Event.isAttrUpdate]⟩
      | some project_row =>
        rw [hl, hattr] at h
        dsimp only at h
        have hA2 : (applyAttributes db project_row.id none).2 = ([] : List Event) := rfl
        have hRem : List.filter Event.isAttrUpdate
            (applyRemovals (applyAttributes db project_row.id none).1
              payload.repos_to_remove).2 = [] :=
          filter_eq_nil_of_false (fun e he => by
            obtain ⟨u, rfl⟩ := applyRemovals_events _ _ e he
            rfl)
        by_cases ha : payload.repos_to_add.isEmpty
        · rw [if_pos ha] at h
          injection h with h1 h2
          injection h2 with h2 h3
          rw [← h2, ← h3]
          refine ⟨applyRemovals_projects _ _, ?_⟩
          simp [List.filter_cons, List.filter_append, Event.isAttrUpdate, hA2, hRem]
        · rw [if_neg ha] at h
          have hAdd : List.filter Event.isAttrUpdate
              (processAdds env project_row.id payload.repos_to_add
                (applyRemovals (applyAttributes db project_row.id none).1
                  payload.repos_to_remove).1 0).2.2 = [] :=
            filter_eq_nil_of_false (fun e he =>
              event_not_attr_of_addPhase e (processAdds_events _ _ _ _ _ e he))
          cases hpa : (processAdds env project_row.id payload.repos_to_add
              (applyRemovals (applyAttributes db project_row.id none).1
                payload.repos_to_remove).1 0).1 with
          | ok total =>
            rw [hpa] at h
            dsimp only at h
            injection h with h1 h2
            injection h2 with h2 h3
            rw [← h2, ← h3]
            refine ⟨by rw [processAdds_projects, applyRemovals_projects]; rfl, ?_⟩
            simp [List.filter_cons, List.filter_append, Event.isAttrUpdate, hA2, hRem, hAdd]
          | error er =>
            rw [hpa] at h
            dsimp only at h
            injection h with h1 h2
            injection h2 with h2 h3
            rw [← h2, ← h3]
            refine ⟨by rw [processAdds_projects, applyRemovals_projects]; rfl, ?_⟩
            simp [List.filter_cons, List.filter_append, Event.isAttrUpdate, hA2, hRem, hAdd]
  · intro attributes project_row hattr hs hl
    rw [if_neg (by simp [hs]), hl, hattr] at h
    dsimp only at h
    have hA2 : (applyAttributes db project_row.id (some attributes)).2 =
        [Event.attrUpdate project_row.id] := rfl
    have hRem : List.filter Event.isAttrUpdate
        (applyRemovals (applyAttributes db project_row.id (some attributes)).1
          payload.repos_to_remove).2 = [] :=
      filter_eq_nil_of_false (fun e he => by
        obtain ⟨u, rfl⟩ := applyRemovals_events _ _ e he
        rfl)
    by_cases ha : payload.repos_to_add.isEmpty
    · rw [if_pos ha] at h
      injection h with h1 h2
      injection h2 with h2 h3
      rw [← h2, ← h3]
      refine ⟨by rw [applyRemovals_projects]; rfl, ?_⟩
      simp [List.filter_cons, List.filter_append, Event.isAttrUpdate, hA2, hRem]
    · rw [if_neg ha] at h
      have hAdd : List.filter Event.isAttrUpdate
          (processAdds env project_row.id payload.repos_to_add
            (applyRemovals (applyAttributes db project_row.id (some attributes)).1
              payload.repos_to_remove).1 0).2.2 = [] :=
        filter_eq_nil_of_false (fun e he =>
          event_not_attr_of_addPhase e (processAdds_events _ _ _ _ _ e he))
      cases hpa : (processAdds env project_row.id payload.repos_to_add
          (applyRemovals (applyAttributes db project_row.id (some attributes)).1
            payload.repos_to_remove).1 0).1 with
      | ok total =>
        rw [hpa] at h
        dsimp only at h
        injection h with h1 h2
        injection h2 with h2 h3
        rw [← h2, ← h3]
        refine ⟨by rw [processAdds_projects, applyRemovals_projects]; rfl, ?_⟩
        simp [List.filter_cons, List.filter_append, Event.isAttrUpdate, hA2, hRem, hAdd]
      | error er =>
        rw [hpa] at h
        dsimp only at h
        injection h with h1 h2
        injection h2 with h2 h3
        rw [← h2, ← h3]
        refine ⟨by rw [processAdds_projects, applyRemovals_projects]; rfl, ?_⟩
        simp [List.filter_cons, List.filter_append, Event.isAttrUpdate, hA2, hRem, hAdd]

end GhSync

namespace GhSync

/-- Claim C7: in the operation trace of one invocation, every attribute
update precedes every repository removal, and every removal precedes every
add-phase operation (repository insert, issue fetch, batch issue insert) —
so a repository in both lists is deleted before being re-created. -/
theorem C7_lifecycle_order (env : Env) (db : Db) (payload : Payload)
    (res : Except HandlerError Response) (db' : Db) (tr : List Event)
    (h : function_handler env db payload = (res, db', tr)) :
    ∀ (i j : Nat) (ei ej : Event), tr[i]? = some ei → tr[j]? = some ej →
      (ei.isAttrUpdate = true → ej.isRepoDelete = true → i < j) ∧
      (ei.isRepoDelete = true → ej.isAddPhase = true → i < j) := by
  obtain ⟨pre, u, d, a, htr, hpre, hu, hd, ha⟩ :=
    handler_trace_shape env db payload res db' tr h
  subst htr
  intro i j ei ej hi hj
  have h1i : ((pre ++ u) ++ (d ++ a))[i]? = some ei := by
    simpa [List.append_assoc] using hi
  have h1j : ((pre ++ u) ++ (d ++ a))[j]? = some ej := by
    simpa [List.append_assoc] using hj
  have h2i : (((pre ++ u) ++ d) ++ a)[i]? = some ei := by
    simpa [List.append_assoc] using hi
  have h2j : (((pre ++ u) ++ d) ++ a)[j]? = some ej := by
    simpa [List.append_assoc] using hj
  constructor
  · intro hA hD
    refine lt_of_mem_split (P := Event.isAttrUpdate) (Q := Event.isRepoDelete)
      ?_ ?_ h1i h1j hA hD
    · intro e he
      rcases List.mem_append.mp he with he' | he'
      · obtain ⟨url', rfl⟩ := hd e he'
        rfl
      · exact event_not_attr_of_addPhase e (ha e he')
    · intro e he
      rcases List.mem_append.mp he with he' | he'
      · obtain ⟨n, s, rfl⟩ := hpre e he'
        rfl
      · obtain ⟨p, rfl⟩ := hu e he'
        rfl
  · intro hD hAp
    refine lt_of_mem_split (P := Event.isRepoDelete) (Q := Event.isAddPhase)
      ?_ ?_ h2i h2j hD hAp
    · intro e he
      exact event_not_delete_of_addPhase e (ha e he)
    · intro e he
      rcases List.mem_append.mp he with he' | he'
      · rcases List.mem_append.mp he' with he'' | he''
        · obtain ⟨n, s, rfl⟩ := hpre e he''
          rfl
        · obtain ⟨p, rfl⟩ := hu e he''
          rfl
      · obtain ⟨url', rfl⟩ := hd e he'
        rfl

/-- Claim C3: on success, the number of batch insert statements equals
the number of added repositories with a non-empty filtered set (an empty
filtered set contributes no insert), and — when `reposToAdd` is non-empty —
the response body reports the sum over `reposToAdd` of the count of
non-pull-request issues among the (at most 100) fetched ones. -/
theorem C3_imported_total (env : Env) (db : Db) (payload : Payload)
    (res : Response) (db' : Db) (tr : List Event)
    (h : function_handler env db payload = (Except.ok res, db', tr)) :
    (tr.filter Event.isIssuesInsert).length =
      (payload.repos_to_add.filter (fun r => filteredCount env r != 0)).length ∧
    (¬ payload.repos_to_add.isEmpty →
      res.body = "Total issues imported: " ++
        toString ((payload.repos_to_add.map (filteredCount env)).sum)) := by
  unfold function_handler at h
  by_cases hs : payload.secret ≠ env.secret
  · rw [if_pos hs] at h
    injection h with h1 h2
    exact absurd h1 (by simp)
  · rw [if_neg hs] at h
    cases hl : lookupProject db payload.project_name payload.project_slug with
    | none =>
      rw [hl] at h
      dsimp only at h
      injection h with h1 h2
      exact absurd h1 (by simp)
    | some project_row =>
      rw [hl] at h
      dsimp only at h
      by_cases ha : payload.repos_to_add.isEmpty
      · rw [if_pos ha] at h
        injection h with h1 h2
        injection h2 with h2 h3
        have hadd : payload.repos_to_add = [] := by simpa using ha
        constructor
        · rw [← h3, hadd]
          have hA2 : List.filter Event.isIssuesInsert
              (applyAttributes db project_row.id payload.attributes).2 = [] :=
            filter_eq_nil_of_false (fun e he => by
              obtain ⟨rfl⟩ := applyAttributes_events _ _ _ e he
              rfl)
          have hRem : List.filter Event.isIssuesInsert
              (applyRemovals (applyAttributes db project_row.id payload.attributes).1
                payload.repos_to_remove).2 = [] :=
            filter_eq_nil_of_false (fun e he => by
              obtain ⟨u, rfl⟩ := applyRemovals_events _ _ e he
              rfl)
          simp [List.cons_append, List.filter_cons, List.filter_append,
            Event.isIssuesInsert, hA2, hRem]
        · intro hne
          exact absurd ha hne
      · rw [if_neg ha] at h
        cases hpa : (processAdds env project_row.id payload.repos_to_add
            (applyRemovals (applyAttributes db project_row.id payload.attributes).1
              payload.repos_to_remove).1 0).1 with
        | ok total =>
          rw [hpa] at h
          dsimp only at h
          injection h with h1 h2
          injection h2 with h2 h3
          obtain ⟨hsum, hcount⟩ := processAdds_spec env project_row.id
            payload.repos_to_add _ 0 total hpa
          constructor
          · rw [← h3]
            have hA2 : List.filter Event.isIssuesInsert
                (applyAttributes db project_row.id payload.attributes).2 = [] :=
              filter_eq_nil_of_false (fun e he => by
                obtain ⟨rfl⟩ := applyAttributes_events _ _ _ e he
                rfl)
            have hRem : List.filter Event.isIssuesInsert
                (applyRemovals (applyAttributes db project_row.id payload.attributes).1
                  payload.repos_to_remove).2 = [] :=
              filter_eq_nil_of_false (fun e he => by
                obtain ⟨u, rfl⟩ := applyRemovals_events _ _ e he
                rfl)
            simp [List.cons_append, List.filter_cons, List.filter_append,
              Event.isIssuesInsert, hA2, hRem, hcount]
          · intro hne
            injection h1 with h1'
            rw [← h1']
            dsimp only
            rw [hsum, Nat.zero_add]
        | error er =>
          rw [hpa] at h
          dsimp only at h
          injection h with h1 h2
          exact absurd h1 (by simp)

end GhSync

namespace GhSync

/-- Claim C1 (code bug): at a concrete payload with matching secret, present
attributes, one removal and empty `reposToAdd`, the handler returns success
and issues no remote fetch, but its text body is
`"Total issues imported: total_issues_imported"` — the source interpolates
the string literal `"total_issues_imported"` instead of the numeral `0`
the spec requires. -/
theorem C1_empty_adds_response_bug :
    (function_handler sampleEnv sampleDb emptyAddPayload).1 =
      Except.ok { status := 200,
                  body := "Total issues imported: total_issues_imported" } ∧
    (function_handler sampleEnv sampleDb emptyAddPayload).2.2.filter
      Event.isIssueFetch = [] ∧
    "Total issues imported: total_issues_imported" ≠ "Total issues imported: 0" := by
  refine ⟨rfl, rfl, by decide⟩

/-- Claim C10: the repository insert statement is one constant string that
writes only the `slug` and `project_id` columns; consequently a repository
row created by this engine carries no `url`, survives every delete-by-url,
and every row present after the add loop either pre-existed or has no
`url`. -/
theorem C10_repo_insert_query :
    (∀ r r' : Repository,
      r.insert_respository_query = r'.insert_respository_query) ∧
    (∀ (db : Db) (url : String) (row : RepoRow),
      row ∈ db.repositories → row.url = none →
      row ∈ (deleteRepoByUrl db url).repositories) ∧
    (∀ (env : Env) (pid : Int) (repos : List Repository) (db : Db)
        (total : Nat) (row : RepoRow),
      row ∈ (processAdds env pid repos db total).2.1.repositories →
      row ∈ db.repositories ∨ row.url = none) := by
  refine ⟨fun r r' => rfl, ?_, ?_⟩
  · intro db url row hmem hurl
    unfold deleteRepoByUrl
    simp only [List.mem_filter]
    refine ⟨hmem, ?_⟩
    rw [hurl]
    simp
  · intro env pid repos db total row hrow
    exact processAdds_repo_urls env pid repos db total row hrow

/-- Witness for C10 at concrete inputs. -/
theorem C10_repo_insert_query_witness :
    (Repository.insert_respository_query ⟨"a", "u1"⟩ =
      Repository.insert_respository_query ⟨"b", "u2"⟩) ∧
    noUrlRow ∈ (deleteRepoByUrl dbWithNoUrlRow "https://github.com/foo/baz").repositories ∧
    (addedRow ∈ sampleDb.repositories ∨ addedRow.url = none) := by
  refine ⟨C10_repo_insert_query.1 ⟨"a", "u1"⟩ ⟨"b", "u2"⟩, ?_, ?_⟩
  · exact C10_repo_insert_query.2.1 dbWithNoUrlRow "https://github.com/foo/baz"
      noUrlRow (by decide) rfl
  · exact C10_repo_insert_query.2.2 sampleEnv 7 samplePayload.repos_to_add
      sampleDb 0 addedRow (by decide)

/-- Witness for C3 at the concrete sample run (three fetched issues, one a
pull request: one insert statement, total 2). -/
theorem C3_imported_total_witness :
    ((function_handler sampleEnv sampleDb samplePayload).2.2.filter
      Event.isIssuesInsert).length =
      (samplePayload.repos_to_add.filter
        (fun r => filteredCount sampleEnv r != 0)).length ∧
    respC3.body = "Total issues imported: " ++
      toString ((samplePayload.repos_to_add.map (filteredCount sampleEnv)).sum) := by
  have h := C3_imported_total sampleEnv sampleDb samplePayload respC3
    (function_handler sampleEnv sampleDb samplePayload).2.1
    (function_handler sampleEnv sampleDb samplePayload).2.2 rfl
  exact ⟨h.1, h.2 (by decide)⟩

/-- Witness for C5 at a concrete mismatching secret. -/
theorem C5_secret_mismatch_witness :
    function_handler sampleEnv sampleDb wrongSecretPayload =
      (Except.error HandlerError.authError, sampleDb, []) :=
  C5_secret_mismatch sampleEnv sampleDb wrongSecretPayload (by decide)

/-- Witness for C6 at the concrete sample run with attributes present. -/
theorem C6_attributes_frame_witness :
    (function_handler sampleEnv sampleDb samplePayload).2.1.projects =
      sampleDb.projects.map (overwriteAttrs sampleProject.id sampleAttributes) ∧
    (function_handler sampleEnv sampleDb samplePayload).2.2.filter
      Event.isAttrUpdate = [Event.attrUpdate sampleProject.id] := by
  have h := C6_attributes_frame sampleEnv sampleDb samplePayload
    (function_handler sampleEnv sampleDb samplePayload).1
    (function_handler sampleEnv sampleDb samplePayload).2.1
    (function_handler sampleEnv sampleDb samplePayload).2.2 rfl
  exact h.2 sampleAttributes sampleProject rfl rfl rfl

/-- Witness for C7 at the concrete sample run: the attribute update (index
1) precedes the removal (index 2), which precedes the repository insert
(index 3). -/
theorem C7_lifecycle_order_witness :
    (function_handler sampleEnv sampleDb samplePayload).2.2[1]? =
      some (Event.attrUpdate 7) ∧
    (function_handler sampleEnv sampleDb samplePayload).2.2[2]? =
      some (Event.repoDelete "https://github.com/foo/baz") ∧
    (function_handler sampleEnv sampleDb samplePayload).2.2[3]? =
      some (Event.repoInsert "x" 7) ∧
    (1 : Nat) < 2 ∧ (2 : Nat) < 3 := by
  have h := C7_lifecycle_order sampleEnv sampleDb samplePayload
    (function_handler sampleEnv sampleDb samplePayload).1
    (function_handler sampleEnv sampleDb samplePayload).2.1
    (function_handler sampleEnv sampleDb samplePayload).2.2 rfl
  refine ⟨rfl, rfl, rfl, ?_, ?_⟩
  · exact (h 1 2 (Event.attrUpdate 7)
      (Event.repoDelete "https://github.com/foo/baz") rfl rfl).1 rfl rfl
  · exact (h 2 3 (Event.repoDelete "https://github.com/foo/baz")
      (Event.repoInsert "x" 7) rfl rfl).2 rfl rfl

/-- Witness for C9 at a concrete number with the high bit set. -/
theorem C9_number_cast_witness :
    bigIssue.number < 2 ^ 64 ∧ 2 ^ 63 ≤ bigIssue.number ∧
    (KudosIssue.from bigIssue).number = (bigIssue.number : Int) - 2 ^ 64 ∧
    (KudosIssue.from bigIssue).number < 0 := by
  have h := C9_number_cast bigIssue (by decide)
  have h2 := h.2 (by decide)
  exact ⟨by decide, by decide, h2.1, h2.2⟩

end GhSync
